import Mathlib

/-!
Verification development for the txn2/volm repository.

The repository keeps two in-memory mirrors of Kubernetes resources — a
`PVCStore` (`store_pvc.go`) mapping claim names to `PersistentVolumeClaim`
records and a `PodStore` (`store_pod.go`) mapping pod names to `Pod`
records — each fed by a shared-informer watch, and an API layer (`api.go`)
that joins and filters the two caches (`GetPVCList`, `GetPVC`,
`GetPodsInfoByPVC`) and forwards deletions upstream (`DeletePVC`).

This file shallowly embeds those parts of the code:
  * Go maps become association lists over `String` keys with `MapUpsert`,
    `MapDelete`, `MapLookup`;
  * the store methods (`AddPVC`, `DeletePVC`, `GetPVC`, `GetPVCs`, and the
    pod analogues) are translated statement by statement;
  * the watch event handlers registered in `PVCWatch` / `PodWatch` become
    pure state transformers `onAdd` / `onUpdate` / `onDelete`;
  * the `fmt.Errorf` error values of `api.go` become the inductive
    `VolmError`, keeping the three distinct messages distinct;
  * the lock/unlock discipline of each store method is additionally
    recorded as a trace of primitive `StoreAction`s, so that statements
    about which operations hold the mutex are expressible.
-/

namespace Volm

/-- Record mirroring `v1.PersistentVolumeClaim` as used by the code:
`Name`, `Labels`, `Annotations`, the opaque `Status` and `Spec` blobs
(abstracted to `Nat` payloads — the code only copies them), and the
optional `DeletionTimestamp` (`metaV1.Time` abstracted to `Nat`). -/
structure PersistentVolumeClaim where
  name : String
  labels : List (String × String)
  annotations : List (String × String)
  status : Nat
  spec : Nat
  deletionTimestamp : Option Nat
deriving DecidableEq

/-- Mirrors `v1.PersistentVolumeClaimVolumeSource` (the `ClaimName` field). -/
structure PersistentVolumeClaimVolumeSource where
  claimName : String
deriving DecidableEq

/-- Mirrors `v1.Volume` as used in `GetPodsInfoByPVC`: only the optional
`PersistentVolumeClaim` source is consulted (`nil` pointer = `none`). -/
structure Volume where
  persistentVolumeClaim : Option PersistentVolumeClaimVolumeSource
deriving DecidableEq

/-- Record mirroring `v1.Pod` as used by the code: `Name`, `Labels`,
`Annotations`, `Status.Phase` (a string enum), `Status.StartTime`,
`DeletionTimestamp`, and `Spec.Volumes`. -/
structure Pod where
  name : String
  labels : List (String × String)
  annotations : List (String × String)
  phase : String
  startTime : Option Nat
  deletionTimestamp : Option Nat
  volumes : List Volume
deriving DecidableEq

/-- Mirrors the `PodInfo` response struct of `api.go`. -/
structure PodInfo where
  name : String
  labels : List (String × String)
  annotations : List (String × String)
  phase : String
  startTime : Option Nat
  terminating : Bool
  terminatingSince : Option Nat
deriving DecidableEq

/-- Mirrors the `VolumeInfo` response struct of `api.go`. -/
structure VolumeInfo where
  name : String
  labels : List (String × String)
  annotations : List (String × String)
  status : Nat
  spec : Nat
  terminating : Bool
  terminatingSince : Option Nat
  usedBy : List PodInfo
deriving DecidableEq

/-- Go map assignment `m[k] = v`: replace the first binding of `k`, or
append a new binding when `k` is absent. -/
def MapUpsert {α : Type} : List (String × α) → String → α → List (String × α)
  | [], k, v => [(k, v)]
  | (k₀, v₀) :: t, k, v =>
      if k₀ = k then (k, v) :: t else (k₀, v₀) :: MapUpsert t k v

/-- Go map deletion `delete(m, k)`. -/
def MapDelete {α : Type} (m : List (String × α)) (k : String) : List (String × α) :=
  m.filter (fun p => p.1 ≠ k)

/-- Go map lookup `v, ok := m[k]` (`none` when `ok` is false). -/
def MapLookup {α : Type} : List (String × α) → String → Option α
  | [], _ => none
  | (k₀, v₀) :: t, k => if k₀ = k then some v₀ else MapLookup t k

/-- Go map indexing `m[k]` in value position: the zero value `""` when the
key is absent. -/
def labelsGet (labels : List (String × String)) (k : String) : String :=
  (MapLookup labels k).getD ""

/-- The `pvcMap` field of `PVCStore`. -/
abbrev PVCMap := List (String × PersistentVolumeClaim)

/-- The `podMap` field of `PodStore`. -/
abbrev PodMap := List (String × Pod)

/-- `store_pvc.go` `AddPVC`: `pvcs.pvcMap[pvc.Name] = pvc` (under the lock). -/
def PVCStore.AddPVC (m : PVCMap) (pvc : PersistentVolumeClaim) : PVCMap :=
  MapUpsert m pvc.name pvc

/-- `store_pvc.go` `DeletePVC`: look the name up and delete the entry only
when present (under the lock). The parameter name `podName` is the
source's. -/
def PVCStore.DeletePVC (m : PVCMap) (podName : String) : PVCMap :=
  if (MapLookup m podName).isSome then MapDelete m podName else m

/-- `store_pvc.go` `GetPVC`: point lookup, `nil` (= `none`) when absent. -/
def PVCStore.GetPVC (m : PVCMap) (pvcName : String) : Option PersistentVolumeClaim :=
  MapLookup m pvcName

/-- `store_pvc.go` `GetPVCs`: append every value of the map to a slice. -/
def PVCStore.GetPVCs (m : PVCMap) : List PersistentVolumeClaim :=
  m.map (fun p => p.2)

/-- `store_pod.go` `AddPod`: `ps.podMap[pod.Name] = pod` (under the lock). -/
def PodStore.AddPod (m : PodMap) (pod : Pod) : PodMap :=
  MapUpsert m pod.name pod

/-- `store_pod.go` `DeletePod`: delete the entry only when present. -/
def PodStore.DeletePod (m : PodMap) (podName : String) : PodMap :=
  if (MapLookup m podName).isSome then MapDelete m podName else m

/-- `store_pod.go` `GetPod`: point lookup. -/
def PodStore.GetPod (m : PodMap) (podName : String) : Option Pod :=
  MapLookup m podName

/-- `store_pod.go` `GetPods`: append every value of the map to a slice. -/
def PodStore.GetPods (m : PodMap) : List Pod :=
  m.map (fun p => p.2)

/-- `store_pvc.go` `PVCWatch` `AddFunc`: casts the payload and calls `AddPVC`. -/
def PVCWatch.onAdd (m : PVCMap) (obj : PersistentVolumeClaim) : PVCMap :=
  PVCStore.AddPVC m obj

/-- `store_pvc.go` `PVCWatch` `DeleteFunc`: calls `DeletePVC` with the
payload's name. -/
def PVCWatch.onDelete (m : PVCMap) (obj : PersistentVolumeClaim) : PVCMap :=
  PVCStore.DeletePVC m obj.name

/-- `store_pvc.go` `PVCWatch` `UpdateFunc`: the source casts `oldObj` — not
`newObj` — and calls `AddPVC` on it. -/
def PVCWatch.onUpdate (m : PVCMap) (oldObj newObj : PersistentVolumeClaim) : PVCMap :=
  PVCStore.AddPVC m oldObj

/-- `store_pod.go` `PodWatch` `AddFunc`. -/
def PodWatch.onAdd (m : PodMap) (obj : Pod) : PodMap :=
  PodStore.AddPod m obj

/-- `store_pod.go` `PodWatch` `DeleteFunc`. -/
def PodWatch.onDelete (m : PodMap) (obj : Pod) : PodMap :=
  PodStore.DeletePod m obj.name

/-- `store_pod.go` `PodWatch` `UpdateFunc`: casts `newObj` and calls `AddPod`. -/
def PodWatch.onUpdate (m : PodMap) (oldObj newObj : Pod) : PodMap :=
  PodStore.AddPod m newObj

/-- The distinct `fmt.Errorf` values produced by `api.go`:
`"not found"`, `"PVC labels does not contain key %s"`, and
`"PVC label %s does not contain value %s"`. -/
inductive VolmError where
  | notFound : VolmError
  | missingKey (k : String) : VolmError
  | valueMismatch (k v : String) : VolmError
deriving DecidableEq

/-- The selector loop of `GetPVCList` (api.go lines 157–167): a
`selectorPass` flag starts `true` and is forced `false` by a missing key
or a mismatched value; no early exit. -/
def selectorPass (selMap : List (String × String)) (labels : List (String × String)) : Bool :=
  selMap.foldl
    (fun pass kv =>
      let pass₁ := if (MapLookup labels kv.1).isNone then false else pass
      if labelsGet labels kv.1 ≠ kv.2 then false else pass₁)
    true

/-- The selector loop of `GetPVC` (api.go lines 224–233): returns the first
failing requirement's error, `none` when every requirement holds. -/
def API.checkSelectorGet (selMap : List (String × String))
    (labels : List (String × String)) : Option VolmError :=
  match selMap with
  | [] => none
  | kv :: rest =>
      if (MapLookup labels kv.1).isNone then some (VolmError.missingKey kv.1)
      else if labelsGet labels kv.1 ≠ kv.2 then some (VolmError.valueMismatch kv.1 kv.2)
      else API.checkSelectorGet rest labels

/-- The selector loop of `DeletePVC` (api.go lines 289–298): textually the
same loop as the one in `GetPVC`, embedded separately so that the claim
that the three sites agree is not true by definition. -/
def API.checkSelectorDel (selMap : List (String × String))
    (labels : List (String × String)) : Option VolmError :=
  match selMap with
  | [] => none
  | kv :: rest =>
      if (MapLookup labels kv.1).isNone then some (VolmError.missingKey kv.1)
      else if labelsGet labels kv.1 ≠ kv.2 then some (VolmError.valueMismatch kv.1 kv.2)
      else API.checkSelectorDel rest labels

/-- The condition `v.PersistentVolumeClaim != nil &&
v.PersistentVolumeClaim.ClaimName == pvcName` of `GetPodsInfoByPVC`. -/
def volMatches (v : Volume) (pvcName : String) : Bool :=
  match v.persistentVolumeClaim with
  | some claimRef => claimRef.claimName = pvcName
  | none => false

/-- The `PodInfo` literal built inside `GetPodsInfoByPVC`'s inner loop,
including the `terminating` / `terminatingSince` derivation from
`pod.DeletionTimestamp`. -/
def mkPodInfo (pod : Pod) : PodInfo :=
  { name := pod.name
    labels := pod.labels
    annotations := pod.annotations
    phase := pod.phase
    startTime := pod.startTime
    terminating := pod.deletionTimestamp.isSome
    terminatingSince := pod.deletionTimestamp }

/-- `api.go` `GetPodsInfoByPVC`: two nested loops appending a `PodInfo`
for every volume entry of every pod that references `pvcName`; the Go
function's error result is the literal `nil`, kept here as the pair's
second component. -/
def API.GetPodsInfoByPVC (pods : List Pod) (pvcName : String) :
    List PodInfo × Option VolmError :=
  (pods.foldl
    (fun acc pod =>
      pod.volumes.foldl
        (fun acc₂ v => if volMatches v pvcName then acc₂ ++ [mkPodInfo pod] else acc₂)
        acc)
    [], none)

/-- The `VolumeInfo` built by `GetPVCList` (and, field for field, by
`GetPVC` on its success path). -/
def mkVolumeInfo (pvc : PersistentVolumeClaim) (podList : List PodInfo) : VolumeInfo :=
  { name := pvc.name
    labels := pvc.labels
    annotations := pvc.annotations
    status := pvc.status
    spec := pvc.spec
    terminating := pvc.deletionTimestamp.isSome
    terminatingSince := pvc.deletionTimestamp
    usedBy := podList }

/-- The Go zero value `VolumeInfo\x7b\x7d` returned on every error path of
`GetPVC`. -/
def emptyVolumeInfo : VolumeInfo :=
  { name := ""
    labels := []
    annotations := []
    status := 0
    spec := 0
    terminating := false
    terminatingSince := none
    usedBy := [] }

/-- The loop body of `api.go` `GetPVCList` over the claim snapshot:
skip claims failing the selector, propagate a `GetPodsInfoByPVC` error
(returning the views accumulated so far), append a `VolumeInfo` otherwise. -/
def API.GetPVCListAux (pods : List Pod) (selMap : List (String × String)) :
    List PersistentVolumeClaim → List VolumeInfo → List VolumeInfo × Option VolmError
  | [], vols => (vols, none)
  | pvc :: rest, vols =>
      if selectorPass selMap pvc.labels then
        match API.GetPodsInfoByPVC pods pvc.name with
        | (_, some e) => (vols, some e)
        | (podList, none) =>
            API.GetPVCListAux pods selMap rest (vols ++ [mkVolumeInfo pvc podList])
      else API.GetPVCListAux pods selMap rest vols

/-- `api.go` `GetPVCList`: snapshot the pod store once, then run the loop
over the claim-store snapshot. -/
def API.GetPVCList (pvcMap : PVCMap) (podMap : PodMap)
    (selMap : List (String × String)) : List VolumeInfo × Option VolmError :=
  API.GetPVCListAux (PodStore.GetPods podMap) selMap (PVCStore.GetPVCs pvcMap) []

/-- `api.go` `GetPVC`: cache lookup, selector check with early error
return, join against the pod snapshot, returning the Go pair
`(VolumeInfo, error)`. -/
def API.GetPVC (pvcMap : PVCMap) (podMap : PodMap)
    (selMap : List (String × String)) (name : String) :
    VolumeInfo × Option VolmError :=
  match PVCStore.GetPVC pvcMap name with
  | none => (emptyVolumeInfo, some VolmError.notFound)
  | some pvc =>
      match API.checkSelectorGet selMap pvc.labels with
      | some e => (emptyVolumeInfo, some e)
      | none =>
          match API.GetPodsInfoByPVC (PodStore.GetPods podMap) pvc.name with
          | (_, some e) => (emptyVolumeInfo, some e)
          | (podList, none) => (mkVolumeInfo pvc podList, none)

/-- Outcome of `pvcClient.Get` against the external authority in
`api.go` `DeletePVC`: a NotFound status error, some other error, or the
live claim. -/
inductive FetchResult where
  | notFoundErr : FetchResult
  | otherErr : FetchResult
  | found (pvc : PersistentVolumeClaim) : FetchResult
deriving DecidableEq

/-- The distinct error outcomes of `api.go` `DeletePVC`. -/
inductive DeleteError where
  | notFound : DeleteError
  | upstreamGetErr : DeleteError
  | selectorErr (e : VolmError) : DeleteError
  | upstreamDeleteErr : DeleteError
deriving DecidableEq

/-- `api.go` `DeletePVC`: fetch the live claim from the authority
(`fetch`), propagate NotFound or other fetch errors, run the selector
loop, and only then issue `pvcClient.Delete` (whose success is modelled
by `deleteFails`). The second component records whether a delete request
was issued to the authority. -/
def API.DeletePVC (fetch : String → FetchResult) (deleteFails : Bool)
    (selMap : List (String × String)) (name : String) :
    Option DeleteError × Bool :=
  match fetch name with
  | FetchResult.notFoundErr => (some DeleteError.notFound, false)
  | FetchResult.otherErr => (some DeleteError.upstreamGetErr, false)
  | FetchResult.found pvc =>
      match API.checkSelectorDel selMap pvc.labels with
      | some e => (some (DeleteError.selectorErr e), false)
      | none =>
          if deleteFails then (some DeleteError.upstreamDeleteErr, true)
          else (none, true)

/-- Primitive steps of a store method, for stating which methods access
the shared map while holding the store's mutex. -/
inductive StoreAction where
  | lock : StoreAction
  | unlock : StoreAction
  | mapRead : StoreAction
  | mapWrite : StoreAction
deriving DecidableEq

/-- `guardedFrom held tr` holds when every map access in `tr` happens
while the mutex is held, starting from holding state `held`. -/
def guardedFrom : Bool → List StoreAction → Bool
  | _, [] => true
  | _, StoreAction.lock :: t => guardedFrom true t
  | _, StoreAction.unlock :: t => guardedFrom false t
  | held, StoreAction.mapRead :: t => held && guardedFrom held t
  | held, StoreAction.mapWrite :: t => held && guardedFrom held t

/-- A trace is lock-guarded when every map access happens under the mutex. -/
def lockGuarded (tr : List StoreAction) : Bool :=
  guardedFrom false tr

/-- `AddPVC`: `Lock()`; write `pvcMap[pvc.Name]`; `Unlock()`. -/
def AddPVCTrace : List StoreAction :=
  [StoreAction.lock, StoreAction.mapWrite, StoreAction.unlock]

/-- `DeletePVC`: `Lock()`; read `pvcMap[podName]`; conditionally
`delete(pvcMap, podName)`; `Unlock()`. -/
def DeletePVCTrace : List StoreAction :=
  [StoreAction.lock, StoreAction.mapRead, StoreAction.mapWrite, StoreAction.unlock]

/-- `GetPVC`: reads `pvcMap[pvcName]` with no `Lock()`/`Unlock()` call. -/
def GetPVCTrace : List StoreAction :=
  [StoreAction.mapRead]

/-- `GetPVCs`: ranges over `pvcMap` with no `Lock()`/`Unlock()` call. -/
def GetPVCsTrace : List StoreAction :=
  [StoreAction.mapRead]

/-- `AddPod`: `Lock()`; write `podMap[pod.Name]`; `Unlock()`. -/
def AddPodTrace : List StoreAction :=
  [StoreAction.lock, StoreAction.mapWrite, StoreAction.unlock]

/-- `DeletePod`: `Lock()`; read; conditional delete; `Unlock()`. -/
def DeletePodTrace : List StoreAction :=
  [StoreAction.lock, StoreAction.mapRead, StoreAction.mapWrite, StoreAction.unlock]

/-- `GetPod`: reads `podMap[podName]` with no `Lock()`/`Unlock()` call. -/
def GetPodTrace : List StoreAction :=
  [StoreAction.mapRead]

/-- `GetPods`: ranges over `podMap` with no `Lock()`/`Unlock()` call. -/
def GetPodsTrace : List StoreAction :=
  [StoreAction.mapRead]

/-- Modelled from the spec: §4.2 step 4 — the periodic resync re-delivers
every record of the full listing `S` through the watch subscription; the
repository itself contains no `Replace` operation, so each re-delivered
record reaches the store only through the `UpdateFunc` handler registered
in `PVCWatch` (old and new payload coincide on this path), i.e. through
`AddPVC`. This definition is the composite effect of one resync on the
claim store. -/
def resyncPVC (m : PVCMap) (S : List PersistentVolumeClaim) : PVCMap :=
  S.foldl (fun acc pvc => PVCWatch.onUpdate acc pvc pvc) m

/-- `pod.Spec.Volumes` entries referencing `pvcName`, counted. -/
def podRefCount (pod : Pod) (pvcName : String) : Nat :=
  pod.volumes.countP (fun v => volMatches v pvcName)

/-- Whether `pvcName` occurs in `pod`'s volume-reference list. -/
def podRefsPVC (pod : Pod) (pvcName : String) : Bool :=
  pod.volumes.any (fun v => volMatches v pvcName)

/-! ### Map lemmas shared by the claim theorems -/

theorem MapLookup_MapUpsert_self {α : Type} (m : List (String × α)) (k : String) (v : α) :
    MapLookup (MapUpsert m k v) k = some v := by
  induction m with
  | nil => simp [MapUpsert, MapLookup]
  | cons p t ih =>
      obtain ⟨k₀, v₀⟩ := p
      by_cases h : k₀ = k
      · simp [MapUpsert, MapLookup, h]
      · simp [MapUpsert, MapLookup, h, ih]

theorem MapLookup_MapUpsert_ne {α : Type} (m : List (String × α)) (k n : String) (v : α)
    (h : k ≠ n) : MapLookup (MapUpsert m k v) n = MapLookup m n := by
  induction m with
  | nil => simp [MapUpsert, MapLookup, h]
  | cons p t ih =>
      obtain ⟨k₀, v₀⟩ := p
      by_cases h₀ : k₀ = k
      · subst h₀
        simp [MapUpsert, MapLookup, h]
      · simp [MapUpsert, MapLookup, h₀, ih]

theorem MapLookup_MapDelete_self {α : Type} (m : List (String × α)) (k : String) :
    MapLookup (MapDelete m k) k = none := by
  induction m with
  | nil => simp [MapDelete, MapLookup]
  | cons p t ih =>
      obtain ⟨k₀, v₀⟩ := p
      by_cases h : k₀ = k
      · simpa [MapDelete, h] using ih
      · simpa [MapDelete, MapLookup, h] using ih

theorem PVCStore.DeletePVC_absent (m : PVCMap) (n : String)
    (h : MapLookup m n = none) : PVCStore.DeletePVC m n = m := by
  simp [PVCStore.DeletePVC, h]

theorem PodStore.DeletePod_absent (m : PodMap) (n : String)
    (h : MapLookup m n = none) : PodStore.DeletePod m n = m := by
  simp [PodStore.DeletePod, h]

theorem PVCStore.GetPVC_DeletePVC_self (m : PVCMap) (n : String) :
    PVCStore.GetPVC (PVCStore.DeletePVC m n) n = none := by
  by_cases h : (MapLookup m n).isSome
  · simp [PVCStore.DeletePVC, PVCStore.GetPVC, h, MapLookup_MapDelete_self]
  · simp only [PVCStore.DeletePVC, PVCStore.GetPVC, h, if_false]
    simpa using h

theorem PodStore.GetPod_DeletePod_self (m : PodMap) (n : String) :
    PodStore.GetPod (PodStore.DeletePod m n) n = none := by
  by_cases h : (MapLookup m n).isSome
  · simp [PodStore.DeletePod, PodStore.GetPod, h, MapLookup_MapDelete_self]
  · simp only [PodStore.DeletePod, PodStore.GetPod, h, if_false]
    simpa using h

/-! ### C9 -/

/-- C9: on both stores, for every record `r` and prior state, `Upsert(r)`
followed by `Get(r.name)` returns `r`; after `Remove(n)`, `Get(n)` returns
absence; a second `Remove(n)` is a no-op (the state is unchanged and no
error can be signalled — the operations are total). -/
theorem c9_upsert_get_remove_algebra
    (m : PVCMap) (r : PersistentVolumeClaim) (mp : PodMap) (p : Pod) (n : String) :
    PVCStore.GetPVC (PVCStore.AddPVC m r) r.name = some r ∧
    PVCStore.GetPVC (PVCStore.DeletePVC m n) n = none ∧
    PVCStore.DeletePVC (PVCStore.DeletePVC m n) n = PVCStore.DeletePVC m n ∧
    PodStore.GetPod (PodStore.AddPod mp p) p.name = some p ∧
    PodStore.GetPod (PodStore.DeletePod mp n) n = none ∧
    PodStore.DeletePod (PodStore.DeletePod mp n) n = PodStore.DeletePod mp n := by
  refine ⟨?_, PVCStore.GetPVC_DeletePVC_self m n, ?_, ?_, PodStore.GetPod_DeletePod_self mp n, ?_⟩
  · simpa [PVCStore.GetPVC, PVCStore.AddPVC] using MapLookup_MapUpsert_self m r.name r
  · exact PVCStore.DeletePVC_absent _ n (PVCStore.GetPVC_DeletePVC_self m n)
  · simpa [PodStore.GetPod, PodStore.AddPod] using MapLookup_MapUpsert_self mp p.name p
  · exact PodStore.DeletePod_absent _ n (PodStore.GetPod_DeletePod_self mp n)

/-! ### C1 -/

/-- Old version of the claim record delivered by the Update event. -/
def c1OldPVC : PersistentVolumeClaim :=
  { name := "a"
    labels := []
    annotations := []
    status := 0
    spec := 1
    deletionTimestamp := none }

/-- New version of the claim record delivered by the same Update event. -/
def c1NewPVC : PersistentVolumeClaim :=
  { name := "a"
    labels := []
    annotations := []
    status := 0
    spec := 2
    deletionTimestamp := none }

/-- C1: the claim fails on the claim store. `PVCWatch`'s `UpdateFunc`
casts and upserts `oldObj`, so after an Update event carrying versions
`c1OldPVC` / `c1NewPVC` of record `"a"`, the store maps `"a"` to the old
version, not the delivered new one; the pod store's `UpdateFunc` does
upsert the new version, for every state and every pair of versions. -/
theorem c1_pvc_update_handler_stores_old_version :
    PVCStore.GetPVC (PVCWatch.onUpdate [] c1OldPVC c1NewPVC) "a" = some c1OldPVC ∧
    c1OldPVC ≠ c1NewPVC ∧
    (∀ (m : PodMap) (oldObj newObj : Pod),
      PodStore.GetPod (PodWatch.onUpdate m oldObj newObj) newObj.name = some newObj) := by
  refine ⟨by decide, by decide, ?_⟩
  intro m oldObj newObj
  simpa [PodWatch.onUpdate, PodStore.GetPod, PodStore.AddPod] using
    MapLookup_MapUpsert_self m newObj.name newObj

/-! ### C3 -/

/-- C3: the claim fails on the code. The write operations (`AddPVC`,
`DeletePVC`, `AddPod`, `DeletePod`) do acquire the store mutex around
their map accesses, but the read operations (`GetPVC`, `GetPVCs`,
`GetPod`, `GetPods`) access the shared map with no lock acquisition at
all, so not every operation serializes through the store's exclusive
lock. -/
theorem c3_read_ops_access_map_unlocked :
    lockGuarded AddPVCTrace = true ∧
    lockGuarded DeletePVCTrace = true ∧
    lockGuarded AddPodTrace = true ∧
    lockGuarded DeletePodTrace = true ∧
    lockGuarded GetPVCTrace = false ∧
    lockGuarded GetPVCsTrace = false ∧
    lockGuarded GetPodTrace = false ∧
    lockGuarded GetPodsTrace = false := by
  decide

/-! ### C2 -/

/-- A record present in the store before the resync but absent from the
resync snapshot. -/
def c2Stale : PersistentVolumeClaim :=
  { name := "stale"
    labels := []
    annotations := []
    status := 0
    spec := 0
    deletionTimestamp := none }

/-- The sole record of the resync snapshot. -/
def c2Fresh : PersistentVolumeClaim :=
  { name := "a"
    labels := []
    annotations := []
    status := 0
    spec := 0
    deletionTimestamp := none }

/-- C2 counterexample: after a resync with snapshot `S = [c2Fresh]`, a
previously-present record named `"stale"` is still listed, so `List()`
does not return exactly the records of `S`. -/
theorem c2_resync_retains_stale_entry :
    c2Stale ∈ PVCStore.GetPVCs (resyncPVC (PVCStore.AddPVC [] c2Stale) [c2Fresh]) ∧
    c2Stale ∉ [c2Fresh] := by
  decide

theorem MapLookup_resyncPVC_unnamed (S : List PersistentVolumeClaim) (m : PVCMap)
    (n : String) (h : ∀ q ∈ S, q.name ≠ n) :
    MapLookup (resyncPVC m S) n = MapLookup m n := by
  induction S generalizing m with
  | nil => rfl
  | cons q t ih =>
      have hq : q.name ≠ n := h q (List.mem_cons_self q t)
      have ht : ∀ q₀ ∈ t, q₀.name ≠ n := fun q₀ hq₀ => h q₀ (List.mem_cons_of_mem q hq₀)
      calc MapLookup (resyncPVC (PVCWatch.onUpdate m q q) t) n
          = MapLookup (PVCWatch.onUpdate m q q) n := ih _ ht
        _ = MapLookup m n := by
            simpa [PVCWatch.onUpdate, PVCStore.AddPVC] using
              MapLookup_MapUpsert_ne m q.name n q hq

/-- C2 amended: a resync has no `Replace` semantics — it routes every
record of the snapshot `S` through `Upsert`. Afterwards every record of
`S` (with names distinct in `S`) is present under its name, but a
previously-present name that `S` does not mention keeps its old binding:
nothing is dropped. -/
theorem c2_resync_upserts_snapshot_without_dropping
    (m : PVCMap) (S : List PersistentVolumeClaim) (r : PersistentVolumeClaim) (n : String) :
    ((S.map PersistentVolumeClaim.name).Nodup → r ∈ S →
      MapLookup (resyncPVC m S) r.name = some r) ∧
    ((∀ q ∈ S, q.name ≠ n) → MapLookup (resyncPVC m S) n = MapLookup m n) := by
  refine ⟨?_, MapLookup_resyncPVC_unnamed S m n⟩
  induction S generalizing m with
  | nil => intro _ hr; cases hr
  | cons q t ih =>
      intro hnd hr
      rcases List.mem_cons.mp hr with hq | ht
      · subst hq
        have hnotin : ∀ q₀ ∈ t, q₀.name ≠ r.name := by
          intro q₀ hq₀
          have := (List.nodup_cons.mp hnd).1
          intro hEq
          exact this (hEq ▸ List.mem_map_of_mem PersistentVolumeClaim.name hq₀)
        calc MapLookup (resyncPVC (PVCWatch.onUpdate m r r) t) r.name
            = MapLookup (PVCWatch.onUpdate m r r) r.name :=
              MapLookup_resyncPVC_unnamed t _ r.name hnotin
          _ = some r := by
              simpa [PVCWatch.onUpdate, PVCStore.AddPVC] using
                MapLookup_MapUpsert_self m r.name r
      · exact ih _ (List.nodup_cons.mp hnd).2 ht

/-- C2 witness: the amended theorem applied at a concrete store and
snapshot. -/
theorem c2_resync_witness :
    MapLookup (resyncPVC (PVCStore.AddPVC [] c2Stale) [c2Fresh]) c2Fresh.name = some c2Fresh ∧
    MapLookup (resyncPVC (PVCStore.AddPVC [] c2Stale) [c2Fresh]) "stale" =
      MapLookup (PVCStore.AddPVC [] c2Stale) "stale" :=
  ⟨(c2_resync_upserts_snapshot_without_dropping (PVCStore.AddPVC [] c2Stale)
      [c2Fresh] c2Fresh "stale").1 (by decide) (by decide),
   (c2_resync_upserts_snapshot_without_dropping (PVCStore.AddPVC [] c2Stale)
      [c2Fresh] c2Fresh "stale").2 (by decide)⟩

/-! ### C7 -/

theorem API.GetPVCListAux_err_none (pods : List Pod) (selMap : List (String × String))
    (recs : List PersistentVolumeClaim) (vols : List VolumeInfo) :
    (API.GetPVCListAux pods selMap recs vols).2 = none := by
  induction recs generalizing vols with
  | nil => rfl
  | cons pvc rest ih =>
      by_cases h : selectorPass selMap pvc.labels
      · simpa [API.GetPVCListAux, h, API.GetPodsInfoByPVC] using ih _
      · simpa [API.GetPVCListAux, h] using ih vols

/-- C7: `GetPVCList` never errors — for every cached claim-store and
pod-store state and every selector, the error component of its result is
`nil`. -/
theorem c7_list_volumes_never_errors (pvcMap : PVCMap) (podMap : PodMap)
    (selMap : List (String × String)) :
    (API.GetPVCList pvcMap podMap selMap).2 = none :=
  API.GetPVCListAux_err_none (PodStore.GetPods podMap) selMap (PVCStore.GetPVCs pvcMap) []

/-! ### C8 -/

theorem selectorPass_step_eq (labels : List (String × String)) (kv : String × String)
    (b : Bool) :
    (let pass₁ := if (MapLookup labels kv.1).isNone then false else b
     if labelsGet labels kv.1 ≠ kv.2 then false else pass₁) =
    (b && decide (MapLookup labels kv.1 = some kv.2)) := by
  cases h : MapLookup labels kv.1 with
  | none => simp [labelsGet, h]
  | some w =>
      by_cases hw : w = kv.2
      · simp [labelsGet, h, hw]
      · simp [labelsGet, h, hw, Ne.symm hw]

theorem foldl_and_eq_all {α : Type} (f : α → Bool) (l : List α) (b : Bool) :
    l.foldl (fun acc x => acc && f x) b = (b && l.all f) := by
  induction l generalizing b with
  | nil => simp
  | cons x t ih => simp [List.foldl_cons, ih, List.all_cons, Bool.and_assoc]

theorem selectorPass_eq_all (selMap labels : List (String × String)) :
    selectorPass selMap labels =
      selMap.all (fun kv => decide (MapLookup labels kv.1 = some kv.2)) := by
  unfold selectorPass
  calc selMap.foldl
        (fun pass kv =>
          let pass₁ := if (MapLookup labels kv.1).isNone then false else pass
          if labelsGet labels kv.1 ≠ kv.2 then false else pass₁)
        true
      = selMap.foldl
          (fun pass kv => pass && decide (MapLookup labels kv.1 = some kv.2)) true := by
        have hfun :
            (fun (pass : Bool) (kv : String × String) =>
              let pass₁ := if (MapLookup labels kv.1).isNone then false else pass
              if labelsGet labels kv.1 ≠ kv.2 then false else pass₁) =
            (fun (pass : Bool) (kv : String × String) =>
              pass && decide (MapLookup labels kv.1 = some kv.2)) := by
          funext b kv
          exact selectorPass_step_eq labels kv b
        rw [hfun]
    _ = selMap.all (fun kv => decide (MapLookup labels kv.1 = some kv.2)) := by
        simpa using foldl_and_eq_all
          (fun kv => decide (MapLookup labels kv.1 = some kv.2)) selMap true

theorem checkSelectorGet_eq_none_iff (selMap labels : List (String × String)) :
    API.checkSelectorGet selMap labels = none ↔
      ∀ kv ∈ selMap, MapLookup labels kv.1 = some kv.2 := by
  induction selMap with
  | nil => simp [API.checkSelectorGet]
  | cons kv t ih =>
      cases h : MapLookup labels kv.1 with
      | none => simp [API.checkSelectorGet, h]
      | some w =>
          by_cases hw : w = kv.2
          · simp [API.checkSelectorGet, h, hw, labelsGet, ih]
          · simp [API.checkSelectorGet, h, hw, labelsGet, Ne.symm hw]

theorem checkSelectorDel_eq_checkSelectorGet (selMap labels : List (String × String)) :
    API.checkSelectorDel selMap labels = API.checkSelectorGet selMap labels := by
  induction selMap with
  | nil => rfl
  | cons kv t ih => simp [API.checkSelectorDel, API.checkSelectorGet, ih]

/-- C8: an empty selector passes every record; the listing-path predicate
passes exactly when every `(k, v)` requirement is bound in the labels with
value `v` (AND semantics), so a single `k = v` requirement excludes a
record exactly when `k` is unbound or bound to a different value; and the
listing, single-item lookup, and delete paths all decide the very same
predicate. -/
theorem c8_selector_semantics (selMap labels : List (String × String)) :
    (selectorPass [] labels = true) ∧
    (selectorPass selMap labels = true ↔
      ∀ kv ∈ selMap, MapLookup labels kv.1 = some kv.2) ∧
    (∀ k v, selectorPass [(k, v)] labels = false ↔ MapLookup labels k ≠ some v) ∧
    (API.checkSelectorGet selMap labels = none ↔ selectorPass selMap labels = true) ∧
    (API.checkSelectorDel selMap labels = API.checkSelectorGet selMap labels) := by
  have hall : ∀ sel : List (String × String), selectorPass sel labels = true ↔
      ∀ kv ∈ sel, MapLookup labels kv.1 = some kv.2 := by
    intro sel
    rw [selectorPass_eq_all]
    simp [List.all_eq_true]
  refine ⟨rfl, hall selMap, ?_, ?_, checkSelectorDel_eq_checkSelectorGet selMap labels⟩
  · intro k v
    rw [← Bool.not_eq_true, hall [(k, v)]]
    simp
  · rw [checkSelectorGet_eq_none_iff, hall selMap]

/-- C8 witness: the equivalences applied at a concrete selector and label
set — `team = a` excludes labels `\x7bteam: b\x7d` on the listing path,
and the lookup-path check succeeds on empty requirements. -/
theorem c8_selector_witness :
    selectorPass [("team", "a")] [("team", "b")] = false ∧
    API.checkSelectorDel [("team", "a")] [("team", "b")] =
      API.checkSelectorGet [("team", "a")] [("team", "b")] :=
  ⟨((c8_selector_semantics [("team", "a")] [("team", "b")]).2.2.1 "team" "a").mpr
      (by decide),
   (c8_selector_semantics [("team", "a")] [("team", "b")]).2.2.2.2⟩

/-! ### C5 -/

theorem checkSelectorGet_ne_notFound (selMap labels : List (String × String)) :
    API.checkSelectorGet selMap labels ≠ some VolmError.notFound := by
  induction selMap with
  | nil => simp [API.checkSelectorGet]
  | cons kv t ih =>
      by_cases h : (MapLookup labels kv.1).isNone
      · simp [API.checkSelectorGet, h]
      · by_cases hv : labelsGet labels kv.1 ≠ kv.2
        · simp [API.checkSelectorGet, h, hv]
        · simpa [API.checkSelectorGet, h, hv] using ih

theorem checkSelectorGet_missingKey (selMap labels : List (String × String)) (k : String)
    (h : API.checkSelectorGet selMap labels = some (VolmError.missingKey k)) :
    (∃ v, (k, v) ∈ selMap) ∧ MapLookup labels k = none := by
  induction selMap with
  | nil => simp [API.checkSelectorGet] at h
  | cons kv t ih =>
      obtain ⟨k₀, v₀⟩ := kv
      by_cases h₁ : (MapLookup labels k₀).isNone
      · have hk : k₀ = k := by simpa [API.checkSelectorGet, h₁] using h
        subst hk
        exact ⟨⟨v₀, List.mem_cons_self (k₀, v₀) t⟩, Option.isNone_iff_eq_none.mp h₁⟩
      · by_cases hv : labelsGet labels k₀ ≠ v₀
        · simp [API.checkSelectorGet, h₁, hv] at h
        · have h' : API.checkSelectorGet t labels = some (VolmError.missingKey k) := by
            simpa [API.checkSelectorGet, h₁, hv] using h
          obtain ⟨⟨v, hmem⟩, habs⟩ := ih h'
          exact ⟨⟨v, List.mem_cons_of_mem (k₀, v₀) hmem⟩, habs⟩

theorem checkSelectorGet_valueMismatch (selMap labels : List (String × String))
    (k v : String)
    (h : API.checkSelectorGet selMap labels = some (VolmError.valueMismatch k v)) :
    (k, v) ∈ selMap ∧ labelsGet labels k ≠ v := by
  induction selMap with
  | nil => simp [API.checkSelectorGet] at h
  | cons kv t ih =>
      obtain ⟨k₀, v₀⟩ := kv
      by_cases h₁ : (MapLookup labels k₀).isNone
      · simp [API.checkSelectorGet, h₁] at h
      · by_cases hv : labelsGet labels k₀ ≠ v₀
        · have hk : k₀ = k ∧ v₀ = v := by simpa [API.checkSelectorGet, h₁, hv] using h
          obtain ⟨hk₁, hk₂⟩ := hk
          subst hk₁
          subst hk₂
          exact ⟨List.mem_cons_self (k₀, v₀) t, hv⟩
        · have h' : API.checkSelectorGet t labels = some (VolmError.valueMismatch k v) := by
            simpa [API.checkSelectorGet, h₁, hv] using h
          obtain ⟨hmem, hne⟩ := ih h'
          exact ⟨List.mem_cons_of_mem (k₀, v₀) hmem, hne⟩

/-- C5: `GetPVC` reports NotFound exactly when the claim store lacks the
name; when the claim exists but the selector loop rejects it, the
returned error is the loop's selector error, which is never the NotFound
error and identifies the offending requirement — a missing-key error
names a required key absent from the labels, a value-mismatch error names
a required pair whose value the labels do not carry. -/
theorem c5_get_volume_error_conditions (pvcMap : PVCMap) (podMap : PodMap)
    (selMap : List (String × String)) (name : String) :
    ((API.GetPVC pvcMap podMap selMap name).2 = some VolmError.notFound ↔
      PVCStore.GetPVC pvcMap name = none) ∧
    (∀ pvc e, PVCStore.GetPVC pvcMap name = some pvc →
      API.checkSelectorGet selMap pvc.labels = some e →
      (API.GetPVC pvcMap podMap selMap name).2 = some e ∧
      e ≠ VolmError.notFound ∧
      (∀ k, e = VolmError.missingKey k →
        (∃ v, (k, v) ∈ selMap) ∧ MapLookup pvc.labels k = none) ∧
      (∀ k v, e = VolmError.valueMismatch k v →
        (k, v) ∈ selMap ∧ labelsGet pvc.labels k ≠ v)) ∧
    (∀ pvc, PVCStore.GetPVC pvcMap name = some pvc →
      ¬ (∀ kv ∈ selMap, MapLookup pvc.labels kv.1 = some kv.2) →
      ∃ e, API.checkSelectorGet selMap pvc.labels = some e ∧
        (API.GetPVC pvcMap podMap selMap name).2 = some e ∧
        e ≠ VolmError.notFound) := by
  refine ⟨?_, ?_, ?_⟩
  · cases h : PVCStore.GetPVC pvcMap name with
    | none => simp [API.GetPVC, h]
    | some pvc =>
        cases hc : API.checkSelectorGet selMap pvc.labels with
        | none => simp [API.GetPVC, h, hc, API.GetPodsInfoByPVC]
        | some e =>
            simp only [API.GetPVC, h, hc]
            constructor
            · intro habs
              exact absurd (hc.trans habs) (checkSelectorGet_ne_notFound selMap pvc.labels)
            · intro habs
              cases habs
  · intro pvc e hpvc hce
    refine ⟨by simp [API.GetPVC, hpvc, hce], ?_, ?_, ?_⟩
    · intro habs
      exact checkSelectorGet_ne_notFound selMap pvc.labels (habs ▸ hce)
    · intro k hk
      exact checkSelectorGet_missingKey selMap pvc.labels k (hk ▸ hce)
    · intro k v hkv
      exact checkSelectorGet_valueMismatch selMap pvc.labels k v (hkv ▸ hce)
  · intro pvc hpvc hsel
    cases hc : API.checkSelectorGet selMap pvc.labels with
    | none => exact absurd ((checkSelectorGet_eq_none_iff selMap pvc.labels).mp hc) hsel
    | some e =>
        refine ⟨e, rfl, by simp [API.GetPVC, hpvc, hc], ?_⟩
        intro habs
        exact checkSelectorGet_ne_notFound selMap pvc.labels (habs ▸ hc)

/-- Claim record used by the C5 and C6 witnesses: exists, labelled
`team = b`. -/
def pvc2 : PersistentVolumeClaim :=
  { name := "pvc-2"
    labels := [("team", "b")]
    annotations := []
    status := 0
    spec := 0
    deletionTimestamp := none }

/-- C5 witness: on an empty store, `GetPVC "missing"` errors NotFound; on
a store holding `pvc-2` with labels `team = b` and selector `team = a`,
the error names the offending pair `("team", "a")` and differs from
NotFound. -/
theorem c5_get_volume_witness :
    (API.GetPVC [] [] [("team", "a")] "missing").2 = some VolmError.notFound ∧
    (API.GetPVC [("pvc-2", pvc2)] [] [("team", "a")] "pvc-2").2 =
      some (VolmError.valueMismatch "team" "a") ∧
    VolmError.valueMismatch "team" "a" ≠ VolmError.notFound := by
  have h₁ := (c5_get_volume_error_conditions [] [] [("team", "a")] "missing").1.mpr
    (by decide)
  have h₂ := (c5_get_volume_error_conditions [("pvc-2", pvc2)] [] [("team", "a")]
    "pvc-2").2.1 pvc2 (VolmError.valueMismatch "team" "a") (by decide) (by decide)
  exact ⟨h₁, h₂.1, h₂.2.1⟩

/-! ### C10 -/

/-- C10: whenever `GetPVC` returns a non-nil error, the `VolumeInfo`
returned alongside it is the Go zero value — no claim field is populated
on any error path. -/
theorem c10_error_result_is_zero_view (pvcMap : PVCMap) (podMap : PodMap)
    (selMap : List (String × String)) (name : String) (e : VolmError)
    (h : (API.GetPVC pvcMap podMap selMap name).2 = some e) :
    (API.GetPVC pvcMap podMap selMap name).1 = emptyVolumeInfo := by
  cases hp : PVCStore.GetPVC pvcMap name with
  | none => simp [API.GetPVC, hp]
  | some pvc =>
      cases hc : API.checkSelectorGet selMap pvc.labels with
      | some e₀ => simp [API.GetPVC, hp, hc]
      | none => simp [API.GetPVC, hp, hc, API.GetPodsInfoByPVC] at h

/-- C10 witness: the theorem applied at a concrete erroring input. -/
theorem c10_error_result_witness :
    (API.GetPVC [] [] [] "missing").1 = emptyVolumeInfo :=
  c10_error_result_is_zero_view [] [] [] "missing" VolmError.notFound (by decide)

/-! ### C6 -/

/-- C6: `DeletePVC` fetches the live claim first; a NotFound fetch is
propagated with no delete issued; a fetched claim failing the selector
yields that selector error with no delete issued; and a delete request
reaches the authority exactly when the fetch succeeds and the selector
passes. -/
theorem c6_delete_flow (fetch : String → FetchResult) (deleteFails : Bool)
    (selMap : List (String × String)) (name : String) :
    (fetch name = FetchResult.notFoundErr →
      API.DeletePVC fetch deleteFails selMap name = (some DeleteError.notFound, false)) ∧
    (∀ pvc e, fetch name = FetchResult.found pvc →
      API.checkSelectorDel selMap pvc.labels = some e →
      API.DeletePVC fetch deleteFails selMap name =
        (some (DeleteError.selectorErr e), false)) ∧
    ((API.DeletePVC fetch deleteFails selMap name).2 = true ↔
      ∃ pvc, fetch name = FetchResult.found pvc ∧
        API.checkSelectorDel selMap pvc.labels = none) := by
  refine ⟨fun h => by simp [API.DeletePVC, h], fun pvc e h hc => by
    simp [API.DeletePVC, h, hc], ?_⟩
  cases h : fetch name with
  | notFoundErr => simp [API.DeletePVC, h]
  | otherErr => simp [API.DeletePVC, h]
  | found pvc =>
      cases hc : API.checkSelectorDel selMap pvc.labels with
      | some e => simp [API.DeletePVC, h, hc]
      | none =>
          cases deleteFails with
          | true => simp [API.DeletePVC, h, hc]
          | false => simp [API.DeletePVC, h, hc]

/-- C6 witness: with an authority holding `pvc-2` (labels `team = b`) and
selector `team = a`, `DeletePVC "pvc-2"` returns the selector error and
issues no delete. -/
theorem c6_delete_flow_witness :
    API.DeletePVC (fun _ => FetchResult.found pvc2) false [("team", "a")] "pvc-2" =
      (some (DeleteError.selectorErr (VolmError.valueMismatch "team" "a")), false) :=
  (c6_delete_flow (fun _ => FetchResult.found pvc2) false [("team", "a")] "pvc-2").2.1
    pvc2 (VolmError.valueMismatch "team" "a") rfl (by decide)

/-! ### C4 -/

/-- A workload declaring two volume entries that both reference claim
`"x"` — legal in the source's data model, where `Spec.Volumes` is a list. -/
def c4PodDouble : Pod :=
  { name := "p"
    labels := []
    annotations := []
    phase := "Running"
    startTime := none
    deletionTimestamp := none
    volumes :=
      [{ persistentVolumeClaim := some { claimName := "x" } },
       { persistentVolumeClaim := some { claimName := "x" } }] }

/-- C4 counterexample: `GetPodsInfoByPVC` appends one summary per
referencing volume entry, so the single workload `c4PodDouble`, whose
volume-reference list contains `"x"`, is reported twice — not exactly
once. -/
theorem c4_duplicate_refs_duplicate_summaries :
    podRefsPVC c4PodDouble "x" = true ∧
    ((API.GetPodsInfoByPVC [c4PodDouble] "x").1.countP
      (fun i => i.name == c4PodDouble.name)) = 2 := by
  decide

theorem getPodsInfo_inner_count (pod : Pod) (pvcName : String) (q : PodInfo → Bool)
    (vols : List Volume) (acc : List PodInfo) :
    ((vols.foldl
        (fun acc₂ v => if volMatches v pvcName then acc₂ ++ [mkPodInfo pod] else acc₂)
        acc).countP q)
      = acc.countP q +
        (if q (mkPodInfo pod) then vols.countP (fun v => volMatches v pvcName) else 0) := by
  induction vols generalizing acc with
  | nil => simp
  | cons v t ih =>
      by_cases hm : volMatches v pvcName
      · rw [List.foldl_cons, if_pos hm, ih (acc ++ [mkPodInfo pod]),
          List.countP_append, List.countP_cons, List.countP_cons, if_pos hm]
        by_cases hq : q (mkPodInfo pod)
        · simp [hq]
          omega
        · simp [hq]
      · rw [List.foldl_cons, if_neg hm, ih acc]
        simp [List.countP_cons, hm]

theorem getPodsInfo_outer_count (pvcName : String) (q : PodInfo → Bool)
    (pods : List Pod) (acc : List PodInfo) :
    ((pods.foldl
        (fun acc pod =>
          pod.volumes.foldl
            (fun acc₂ v => if volMatches v pvcName then acc₂ ++ [mkPodInfo pod] else acc₂)
            acc)
        acc).countP q)
      = acc.countP q +
        (pods.map
          (fun pod => if q (mkPodInfo pod) then podRefCount pod pvcName else 0)).sum := by
  induction pods generalizing acc with
  | nil => simp
  | cons pod t ih =>
      rw [List.foldl_cons, ih, getPodsInfo_inner_count pod pvcName q pod.volumes acc]
      simp [podRefCount]
      omega

theorem sum_refCounts_single (pvcName : String) (p : Pod) (pods : List Pod)
    (hnd : (pods.map Pod.name).Nodup) (hp : p ∈ pods) :
    (pods.map
      (fun pod => if pod.name == p.name then podRefCount pod pvcName else 0)).sum
      = podRefCount p pvcName := by
  have hzero : ∀ (u : List Pod), (∀ x ∈ u, x.name ≠ p.name) →
      (u.map (fun pod => if pod.name == p.name then podRefCount pod pvcName else 0)).sum
        = 0 := by
    intro u hu
    induction u with
    | nil => rfl
    | cons x s ihs =>
        rw [List.map_cons, List.sum_cons,
          if_neg (show ¬ (x.name == p.name) = true by
            simpa using hu x (List.mem_cons_self x s)),
          ihs (fun y hy => hu y (List.mem_cons_of_mem x hy))]
  induction pods with
  | nil => cases hp
  | cons q t ih =>
      rcases List.mem_cons.mp hp with hq | ht
      · subst hq
        have hnot : ∀ x ∈ t, x.name ≠ p.name := by
          intro x hx hEq
          exact (List.nodup_cons.mp hnd).1 (hEq ▸ List.mem_map_of_mem Pod.name hx)
        rw [List.map_cons, List.sum_cons,
          if_pos (show (p.name == p.name) = true by simp), hzero t hnot]
        omega
      · have hqname : q.name ≠ p.name := by
          intro hEq
          exact (List.nodup_cons.mp hnd).1 (hEq ▸ List.mem_map_of_mem Pod.name ht)
        rw [List.map_cons, List.sum_cons,
          if_neg (show ¬ (q.name == p.name) = true by simpa using hqname),
          ih (List.nodup_cons.mp hnd).2 ht]
        omega

/-- C4 amended: `GetPodsInfoByPVC` emits one summary per volume entry
that references the claim, so (over workloads with pairwise-distinct
names) a workload referencing the claim through at most one volume entry
yields exactly one summary when its reference list contains the claim's
name and none otherwise; a workload referencing the claim through several
volume entries is reported once per entry (see the counterexample). -/
theorem c4_join_summary_count (pods : List Pod) (pvcName : String) (p : Pod)
    (hp : p ∈ pods) (hnd : (pods.map Pod.name).Nodup)
    (hone : podRefCount p pvcName ≤ 1) :
    ((API.GetPodsInfoByPVC pods pvcName).1.countP (fun i => i.name == p.name))
      = if podRefsPVC p pvcName then 1 else 0 := by
  have hcount :
      ((API.GetPodsInfoByPVC pods pvcName).1.countP (fun i => i.name == p.name))
        = podRefCount p pvcName := by
    have houter := getPodsInfo_outer_count pvcName (fun i => i.name == p.name) pods []
    have hmk : ∀ pod : Pod, (mkPodInfo pod).name = pod.name := fun _ => rfl
    simp only [API.GetPodsInfoByPVC, houter, List.countP_nil, Nat.zero_add, hmk]
    exact sum_refCounts_single pvcName p pods hnd hp
  rw [hcount]
  have hiff : podRefsPVC p pvcName = true ↔ 0 < podRefCount p pvcName := by
    unfold podRefsPVC podRefCount
    exact List.any_eq_true.trans List.countP_pos_iff.symm
  by_cases hr : podRefsPVC p pvcName
  · rw [if_pos hr]
    have h₁ := hiff.mp hr
    omega
  · rw [if_neg hr]
    have h₂ : ¬ 0 < podRefCount p pvcName := fun hlt => hr (hiff.mpr hlt)
    omega

/-- The workload of the C4 witness scenario that references `"pvc-1"`. -/
def c4PodA : Pod :=
  { name := "podA"
    labels := []
    annotations := []
    phase := "Running"
    startTime := none
    deletionTimestamp := none
    volumes := [{ persistentVolumeClaim := some { claimName := "pvc-1" } }] }

/-- The workload of the C4 witness scenario that references nothing. -/
def c4PodB : Pod :=
  { name := "podB"
    labels := []
    annotations := []
    phase := "Running"
    startTime := none
    deletionTimestamp := none
    volumes := [] }

/-- C4 witness: the amended theorem at the spec's scenario — one claim
`pvc-1`, two workloads of which exactly one references it — reports
exactly one using workload. -/
theorem c4_join_summary_witness :
    ((API.GetPodsInfoByPVC [c4PodA, c4PodB] "pvc-1").1.countP
      (fun i => i.name == c4PodA.name)) = 1 := by
  have h := c4_join_summary_count [c4PodA, c4PodB] "pvc-1" c4PodA
    (by decide) (by decide) (by decide)
  rw [h]
  decide

end Volm
